import Mathlib

/-!
Verification of the TS PID filter (`src/tspidfilter.cpp`).

The core of the program rewrites MPEG Transport Stream packets carried in UDP
datagrams: it splits a received buffer into 188-byte TS packets after an
optional leading header, checks each packet's sync byte, extracts its 13-bit
PID, and overwrites the PID with the NULL value 8191 when it occurs in a
caller-supplied filter list.

A byte buffer is modelled as a total function `Nat → Nat` from byte index to
byte value; in-place mutation becomes functional update.  The bit-field header
`TSHDR_t` occupies four bytes of the buffer at a packet's base offset `b`:
byte `b` holds `sync`, byte `b + 1` holds `pidH` in its low five bits and
`tei`, `pusi`, `tp` in its top three bits, byte `b + 2` holds `pidL`, and byte
`b + 3` holds `cc`, `afc`, `tfc`.  Field reads and writes mask to the field
width, which is the identity on real byte values (< 256).
-/

namespace TSPidFilter

/-- TS packet length in bytes, `#define TS_LEN 188`. -/
def TS_LEN : Nat := 188

/-- Expected sync byte, `#define TS_SYNC 0x47`. -/
def TS_SYNC : Nat := 0x47

/-- NULL packet PID, `#define PID_NULL 8191`. -/
def PID_NULL : Nat := 8191

/-- Capacity of the global filter array `unsigned short Pid2Patch[100]`. -/
def PID2PATCH_CAPACITY : Nat := 100

/-- The 8-bit `sync` field of the `TSHDR_t` at base offset `b`: the first byte
of the packet. -/
def sync (buf : Nat → Nat) (b : Nat) : Nat := buf b % 256

/-- The 5-bit `pidH` bit-field: the low 5 bits of the second byte of the
packet (the same byte holds `tp`, `pusi`, `tei` in its top 3 bits). -/
def pidH (buf : Nat → Nat) (b : Nat) : Nat := buf (b + 1) % 32

/-- The 8-bit `pidL` field: the third byte of the packet. -/
def pidL (buf : Nat → Nat) (b : Nat) : Nat := buf (b + 2) % 256

/-- `get_pid`: `return p->pidL | (p->pidH << 8);` -/
def get_pid (buf : Nat → Nat) (b : Nat) : Nat :=
  pidL buf b ||| (pidH buf b <<< 8)

/-- `check_sync`: `return TS_SYNC == p->sync;` -/
def check_sync (buf : Nat → Nat) (b : Nat) : Bool :=
  TS_SYNC == sync buf b

/-- `set_pid`: masks the argument to 13 bits (`new_pid &= 0x1FFF`), stores its
low 8 bits in `pidL` (byte `b + 2`) and its high 5 bits in the 5-bit `pidH`
bit-field of byte `b + 1`, leaving that byte's top 3 bits (`tei`, `pusi`,
`tp`) as they were.  A bit-field store produces an 8-bit byte, hence the
`% 256` view of the old byte. -/
def set_pid (buf : Nat → Nat) (b : Nat) (new_pid : Nat) : Nat → Nat :=
  let np := new_pid &&& 0x1FFF
  fun i =>
    if i = b + 2 then np &&& 0xFF
    else if i = b + 1 then buf (b + 1) % 256 / 32 * 32 + (np >>> 8) % 32
    else buf i

/-- The inner loop of `patch_ts` over the filter list
(`for (int i = 0; i < Pid2PatchCount; i++) ...`): for each entry the PID is
re-read from the (possibly already rewritten) packet and compared; on a match
the PID field is set to `PID_NULL` and `n_patched` is incremented (the `break`
in the source is commented out, so the scan continues).  Returns the updated
buffer and the number of increments contributed by this packet. -/
def patch_one : (Nat → Nat) → Nat → List Nat → (Nat → Nat) × Nat
  | buf, _, [] => (buf, 0)
  | buf, b, p :: rest =>
    if get_pid buf b = p then
      let r := patch_one (set_pid buf b PID_NULL) b rest
      (r.1, r.2 + 1)
    else
      patch_one buf b rest

/-- `patch_ts`: walks `n_ts` consecutive `TS_LEN`-byte windows starting at
offset `b`.  A window failing `check_sync` is skipped after printing one
`"sync error !"` line; the third component of the result counts those lines.
Otherwise the filter loop runs on the window.  Returns the updated buffer,
`n_patched` (the function's return value in C) and the sync-error line
count. -/
def patch_ts : (Nat → Nat) → Nat → Nat → List Nat → (Nat → Nat) × Nat × Nat
  | buf, _, 0, _ => (buf, 0, 0)
  | buf, b, n + 1, pids =>
    if check_sync buf b then
      let r1 := patch_one buf b pids
      let r2 := patch_ts r1.1 (b + TS_LEN) n pids
      (r2.1, r1.2 + r2.2.1, r2.2.2)
    else
      let r2 := patch_ts buf (b + TS_LEN) n pids
      (r2.1, r2.2.1, r2.2.2 + 1)

/-- The framing step of `main` (lines 320-322):
`n_ts = n_in / TS_LEN; ts_length = n_ts * TS_LEN; ts_offset = n_in - ts_length`.
It is a function of the received length alone. -/
def frame (n_in : Nat) : Nat × Nat :=
  let n_ts := n_in / TS_LEN
  let ts_length := n_ts * TS_LEN
  (n_ts, n_in - ts_length)

/-- Result of processing one datagram in the main loop: the buffer after
patching, the length handed to `sendto` and the two counters. -/
structure ProcResult where
  buf : Nat → Nat
  len : Nat
  n_patched : Nat
  sync_errors : Nat

/-- One iteration of the main loop on a received buffer of length `n_in`
(socket plumbing aside): frame, patch in place, then send the whole buffer at
its original length `n_in`. -/
def process_datagram (buf : Nat → Nat) (n_in : Nat) (pids : List Nat) : ProcResult :=
  let n_ts := n_in / TS_LEN
  let ts_offset := n_in - n_ts * TS_LEN
  let r := patch_ts buf ts_offset n_ts pids
  ⟨r.1, n_in, r.2.1, r.2.2⟩

/-- Indices of `Pid2Patch` written by the loop in `parse_args`
(`for (; arg < argc; ) Pid2Patch[Pid2PatchCount++] = atoi(argv[arg++]);`),
given the count of remaining arguments and the starting value of
`Pid2PatchCount`: each iteration writes at the current count and increments
it. -/
def pid_write_indices : Nat → Nat → List Nat
  | _, 0 => []
  | count, k + 1 => count :: pid_write_indices (count + 1) k

/-- The `Pid2Patch` indices written by `parse_args` for a command line of
`argc` arguments: with fewer than 5 arguments the program prints usage and
exits before the loop; otherwise `arg` starts at 5 after the four socket
arguments, so the loop runs `argc - 5` times starting from
`Pid2PatchCount = 0`. -/
def parse_args_pid_writes (argc : Nat) : List Nat :=
  if argc < 5 then [] else pid_write_indices 0 (argc - 5)

/-- Contribution of window `j` to `n_patched`, in terms of the buffer as it
stands when the window is reached (windows never overlap, so this equals its
contribution in terms of the received buffer). -/
def window_contrib (buf : Nat → Nat) (b : Nat) (pids : List Nat) (j : Nat) : Nat :=
  if check_sync buf (b + TS_LEN * j) then (patch_one buf (b + TS_LEN * j) pids).2 else 0

/-! ### Basic arithmetic views of the bit-level definitions -/

theorem pidL_lt (buf : Nat → Nat) (b : Nat) : pidL buf b < 256 :=
  Nat.mod_lt _ (by omega)

theorem pidH_lt (buf : Nat → Nat) (b : Nat) : pidH buf b < 32 :=
  Nat.mod_lt _ (by omega)

/-- The bitwise-or in `get_pid` combines an 8-bit value with a value shifted
left by 8, so it is plain addition. -/
theorem get_pid_eq (buf : Nat → Nat) (b : Nat) :
    get_pid buf b = pidL buf b + pidH buf b * 256 := by
  have h := Nat.mul_add_lt_is_or (i := 8) (pidL_lt buf b) (pidH buf b)
  unfold get_pid
  rw [Nat.lor_comm, Nat.shiftLeft_eq, Nat.mul_comm (pidH buf b) (2 ^ 8), ← h]
  have e : (2 : Nat) ^ 8 = 256 := by norm_num
  rw [e]
  omega

theorem get_pid_le (buf : Nat → Nat) (b : Nat) : get_pid buf b ≤ 8191 := by
  rw [get_pid_eq]
  have h1 := pidL_lt buf b
  have h2 := pidH_lt buf b
  omega

/-- Pointwise arithmetic form of `set_pid`. -/
theorem set_pid_eq (buf : Nat → Nat) (b v : Nat) :
    set_pid buf b v = fun i =>
      if i = b + 2 then v % 8192 % 256
      else if i = b + 1 then buf (b + 1) % 256 / 32 * 32 + v % 8192 / 256
      else buf i := by
  funext i
  have h1 : v &&& 0x1FFF = v % 8192 := by
    have h := Nat.and_pow_two_sub_one_eq_mod v 13
    norm_num at h
    exact h
  have h2 : v % 8192 &&& 0xFF = v % 8192 % 256 := by
    have h := Nat.and_pow_two_sub_one_eq_mod (v % 8192) 8
    norm_num at h
    omega
  have h3 : ((v % 8192) >>> 8) % 32 = v % 8192 / 256 := by
    rw [Nat.shiftRight_eq_div_pow]
    have h28 : (2 : Nat) ^ 8 = 256 := by norm_num
    rw [h28]
    omega
  unfold set_pid
  simp only [h1, h2, h3]

theorem set_pid_at_pidL (buf : Nat → Nat) (b v : Nat) :
    set_pid buf b v (b + 2) = v % 8192 % 256 := by
  rw [set_pid_eq]
  simp

theorem set_pid_at_pidH (buf : Nat → Nat) (b v : Nat) :
    set_pid buf b v (b + 1) = buf (b + 1) % 256 / 32 * 32 + v % 8192 / 256 := by
  rw [set_pid_eq]
  have h : b + 1 ≠ b + 2 := by omega
  simp [h]

theorem set_pid_at_other (buf : Nat → Nat) (b v i : Nat)
    (h1 : i ≠ b + 1) (h2 : i ≠ b + 2) : set_pid buf b v i = buf i := by
  rw [set_pid_eq]
  simp [h1, h2]

/-- Reading the PID back after `set_pid` yields the stored value modulo
`2 ^ 13`. -/
theorem get_pid_set_pid (buf : Nat → Nat) (b v : Nat) :
    get_pid (set_pid buf b v) b = v % 8192 := by
  rw [get_pid_eq]
  unfold pidL pidH
  rw [set_pid_at_pidL, set_pid_at_pidH]
  omega

theorem get_pid_set_pid_null (buf : Nat → Nat) (b : Nat) :
    get_pid (set_pid buf b PID_NULL) b = PID_NULL := by
  rw [get_pid_set_pid]
  rfl

/-- Writing the same PID twice is the same as writing it once. -/
theorem set_pid_set_pid (buf : Nat → Nat) (b v : Nat) :
    set_pid (set_pid buf b v) b v = set_pid buf b v := by
  funext i
  by_cases h2 : i = b + 2
  · subst h2
    rw [set_pid_at_pidL, set_pid_at_pidL]
  by_cases h1 : i = b + 1
  · subst h1
    rw [set_pid_at_pidH, set_pid_at_pidH]
    omega
  · rw [set_pid_at_other _ _ _ _ h1 h2, set_pid_at_other _ _ _ _ h1 h2]

theorem get_pid_congr (bufA bufB : Nat → Nat) (b : Nat)
    (h1 : bufA (b + 1) = bufB (b + 1)) (h2 : bufA (b + 2) = bufB (b + 2)) :
    get_pid bufA b = get_pid bufB b := by
  unfold get_pid pidL pidH
  rw [h1, h2]

theorem check_sync_congr (bufA bufB : Nat → Nat) (b : Nat)
    (h : bufA b = bufB b) : check_sync bufA b = check_sync bufB b := by
  unfold check_sync sync
  rw [h]

/-! ### The filter loop on a single packet -/

/-- Buffer effect of the filter loop: the packet's PID field is set to
`PID_NULL` exactly when its received PID occurs in the list, and nothing
happens otherwise.  This holds even when `PID_NULL` itself is listed, because
rewriting the same PID twice is idempotent on the bytes. -/
theorem patch_one_buf (pids : List Nat) :
    ∀ buf : Nat → Nat, ∀ b : Nat,
      (patch_one buf b pids).1 =
        if get_pid buf b ∈ pids then set_pid buf b PID_NULL else buf := by
  induction pids with
  | nil =>
    intro buf b
    simp [patch_one]
  | cons p rest ih =>
    intro buf b
    by_cases hp : get_pid buf b = p
    · rw [patch_one, if_pos hp, ih]
      rw [get_pid_set_pid_null]
      have hmem : get_pid buf b ∈ p :: rest := by
        rw [hp]; exact List.mem_cons_self p rest
      rw [if_pos hmem]
      by_cases hn : PID_NULL ∈ rest
      · rw [if_pos hn, set_pid_set_pid]
      · rw [if_neg hn]
    · rw [patch_one, if_neg hp, ih]
      have hmem : (get_pid buf b ∈ p :: rest) ↔ (get_pid buf b ∈ rest) := by
        simp [List.mem_cons, hp]
      by_cases hm : get_pid buf b ∈ rest
      · rw [if_pos hm, if_pos (hmem.mpr hm)]
      · rw [if_neg hm, if_neg (fun h => hm (hmem.mp h))]

/-- A packet whose PID is not listed contributes nothing to `n_patched`. -/
theorem patch_one_count_notmem (pids : List Nat) :
    ∀ buf : Nat → Nat, ∀ b : Nat, get_pid buf b ∉ pids →
      (patch_one buf b pids).2 = 0 := by
  induction pids with
  | nil => intro buf b _; rfl
  | cons p rest ih =>
    intro buf b hm
    have hp : get_pid buf b ≠ p := fun h => hm (h ▸ List.mem_cons_self p rest)
    have hr : get_pid buf b ∉ rest := fun h => hm (List.mem_cons_of_mem p h)
    rw [patch_one, if_neg hp]
    exact ih buf b hr

/-- When `PID_NULL` is not listed, a packet whose PID is listed contributes
exactly one to `n_patched`: after the first match rewrites the PID to
`PID_NULL`, no later entry can match again. -/
theorem patch_one_count_mem (pids : List Nat) :
    ∀ buf : Nat → Nat, ∀ b : Nat, get_pid buf b ∈ pids → PID_NULL ∉ pids →
      (patch_one buf b pids).2 = 1 := by
  induction pids with
  | nil => intro buf b hm _; exact absurd hm (List.not_mem_nil _)
  | cons p rest ih =>
    intro buf b hm hn
    have hnr : PID_NULL ∉ rest := fun h => hn (List.mem_cons_of_mem p h)
    by_cases hp : get_pid buf b = p
    · rw [patch_one, if_pos hp]
      have h0 : (patch_one (set_pid buf b PID_NULL) b rest).2 = 0 := by
        apply patch_one_count_notmem
        rw [get_pid_set_pid_null]
        exact hnr
      simp [h0]
    · have hr : get_pid buf b ∈ rest := by
        rcases List.mem_cons.mp hm with h | h
        · exact absurd h hp
        · exact h
      rw [patch_one, if_neg hp]
      exact ih buf b hr hnr

/-- The filter loop never writes outside the two PID bytes of its packet. -/
theorem patch_one_untouched (pids : List Nat) (buf : Nat → Nat) (b i : Nat)
    (h1 : i ≠ b + 1) (h2 : i ≠ b + 2) :
    (patch_one buf b pids).1 i = buf i := by
  rw [patch_one_buf]
  by_cases hm : get_pid buf b ∈ pids
  · rw [if_pos hm]
    exact set_pid_at_other buf b PID_NULL i h1 h2
  · rw [if_neg hm]

/-- The count of the filter loop depends only on the two PID bytes of its
packet. -/
theorem patch_one_count_congr (pids : List Nat) :
    ∀ bufA bufB : Nat → Nat, ∀ b : Nat,
      bufA (b + 1) = bufB (b + 1) → bufA (b + 2) = bufB (b + 2) →
      (patch_one bufA b pids).2 = (patch_one bufB b pids).2 := by
  induction pids with
  | nil => intro bufA bufB b _ _; rfl
  | cons p rest ih =>
    intro bufA bufB b h1 h2
    have hg : get_pid bufA b = get_pid bufB b := get_pid_congr bufA bufB b h1 h2
    by_cases hp : get_pid bufA b = p
    · rw [patch_one, if_pos hp, patch_one, if_pos (hg ▸ hp)]
      have e1 : set_pid bufA b PID_NULL (b + 1) = set_pid bufB b PID_NULL (b + 1) := by
        rw [set_pid_at_pidH, set_pid_at_pidH, h1]
      have e2 : set_pid bufA b PID_NULL (b + 2) = set_pid bufB b PID_NULL (b + 2) := by
        rw [set_pid_at_pidL, set_pid_at_pidL]
      simp [ih (set_pid bufA b PID_NULL) (set_pid bufB b PID_NULL) b e1 e2]
    · rw [patch_one, if_neg hp, patch_one, if_neg (hg ▸ hp)]
      exact ih bufA bufB b h1 h2

/-- The buffer effect of the filter loop at any index depends only on the two
PID bytes of its packet and the byte at that index. -/
theorem patch_one_apply_congr (pids : List Nat) (bufA bufB : Nat → Nat) (b i : Nat)
    (h1 : bufA (b + 1) = bufB (b + 1)) (h2 : bufA (b + 2) = bufB (b + 2))
    (hi : bufA i = bufB i) :
    (patch_one bufA b pids).1 i = (patch_one bufB b pids).1 i := by
  rw [patch_one_buf, patch_one_buf, get_pid_congr bufA bufB b h1 h2]
  by_cases hm : get_pid bufB b ∈ pids
  · rw [if_pos hm, if_pos hm]
    by_cases e2 : i = b + 2
    · rw [e2, set_pid_at_pidL, set_pid_at_pidL]
    by_cases e1 : i = b + 1
    · rw [e1, set_pid_at_pidH, set_pid_at_pidH, h1]
    · rw [set_pid_at_other _ _ _ _ e1 e2, set_pid_at_other _ _ _ _ e1 e2, hi]
  · rw [if_neg hm, if_neg hm, hi]

/-! ### The window loop -/

theorem patch_ts_zero (buf : Nat → Nat) (b : Nat) (pids : List Nat) :
    patch_ts buf b 0 pids = (buf, 0, 0) := rfl

theorem patch_ts_succ (buf : Nat → Nat) (b n : Nat) (pids : List Nat) :
    patch_ts buf b (n + 1) pids =
      if check_sync buf b then
        ((patch_ts (patch_one buf b pids).1 (b + TS_LEN) n pids).1,
         (patch_one buf b pids).2 +
           (patch_ts (patch_one buf b pids).1 (b + TS_LEN) n pids).2.1,
         (patch_ts (patch_one buf b pids).1 (b + TS_LEN) n pids).2.2)
      else
        ((patch_ts buf (b + TS_LEN) n pids).1,
         (patch_ts buf (b + TS_LEN) n pids).2.1,
         (patch_ts buf (b + TS_LEN) n pids).2.2 + 1) := rfl

/-- Bytes at or before the starting offset are never written. -/
theorem patch_ts_untouched_le (pids : List Nat) :
    ∀ n : Nat, ∀ buf : Nat → Nat, ∀ b i : Nat, i ≤ b →
      (patch_ts buf b n pids).1 i = buf i := by
  intro n
  induction n with
  | zero => intro buf b i _; rfl
  | succ n ih =>
    intro buf b i hi
    rw [patch_ts_succ]
    by_cases hs : check_sync buf b
    · rw [if_pos hs]
      have h1 := ih (patch_one buf b pids).1 (b + TS_LEN) i (by omega)
      have h2 := patch_one_untouched pids buf b i (by omega) (by omega)
      simpa [h1] using h2
    · rw [if_neg hs]
      exact ih buf (b + TS_LEN) i (by omega)

/-- The window loop writes only the two PID bytes of its windows. -/
theorem patch_ts_untouched (pids : List Nat) :
    ∀ n : Nat, ∀ buf : Nat → Nat, ∀ b i : Nat,
      (∀ j, j < n → i ≠ b + TS_LEN * j + 1 ∧ i ≠ b + TS_LEN * j + 2) →
      (patch_ts buf b n pids).1 i = buf i := by
  intro n
  induction n with
  | zero => intro buf b i _; rfl
  | succ n ih =>
    intro buf b i hi
    have h0 := hi 0 (by omega)
    have h0a : i ≠ b + 1 := by
      have := h0.1; omega
    have h0b : i ≠ b + 2 := by
      have := h0.2; omega
    have hrest : ∀ j, j < n →
        i ≠ b + TS_LEN + TS_LEN * j + 1 ∧ i ≠ b + TS_LEN + TS_LEN * j + 2 := by
      intro j hj
      have h := hi (j + 1) (by omega)
      constructor
      · intro e; exact h.1 (by rw [e]; ring)
      · intro e; exact h.2 (by rw [e]; ring)
    rw [patch_ts_succ]
    by_cases hs : check_sync buf b
    · rw [if_pos hs]
      have h1 := ih (patch_one buf b pids).1 (b + TS_LEN) i hrest
      have h2 := patch_one_untouched pids buf b i h0a h0b
      simpa [h1] using h2
    · rw [if_neg hs]
      exact ih buf (b + TS_LEN) i hrest

/-- The effect of the whole pass on the bytes of window `j` is the effect of
processing window `j` alone on the received buffer: windows are disjoint, and
processing one window reads and writes only that window. -/
theorem patch_ts_window (pids : List Nat) :
    ∀ n : Nat, ∀ buf : Nat → Nat, ∀ b j : Nat, j < n →
      ∀ i, b + TS_LEN * j ≤ i → i < b + TS_LEN * (j + 1) →
      (patch_ts buf b n pids).1 i =
        if check_sync buf (b + TS_LEN * j) then
          (patch_one buf (b + TS_LEN * j) pids).1 i
        else buf i := by
  intro n
  induction n with
  | zero => intro buf b j hj; omega
  | succ n ih =>
    intro buf b j hj i hi1 hi2
    match j with
    | 0 =>
      simp only [Nat.mul_zero, Nat.add_zero] at hi1 hi2 ⊢
      rw [patch_ts_succ]
      by_cases hs : check_sync buf b
      · rw [if_pos hs, if_pos hs]
        exact patch_ts_untouched_le pids n (patch_one buf b pids).1 (b + TS_LEN) i
          (by unfold TS_LEN at hi2 ⊢; omega)
      · rw [if_neg hs, if_neg hs]
        exact patch_ts_untouched_le pids n buf (b + TS_LEN) i
          (by unfold TS_LEN at hi2 ⊢; omega)
    | j' + 1 =>
      have harith : b + TS_LEN * (j' + 1) = b + TS_LEN + TS_LEN * j' := by ring
      have harith2 : b + TS_LEN * (j' + 1 + 1) = b + TS_LEN + TS_LEN * (j' + 1) := by ring
      have hlow : b + TS_LEN ≤ i := by
        have : TS_LEN ≤ TS_LEN * (j' + 1) := Nat.le_mul_of_pos_right TS_LEN (by omega)
        omega
      have hTS : TS_LEN ≤ TS_LEN * (j' + 1) :=
        Nat.le_mul_of_pos_right TS_LEN (by omega)
      rw [patch_ts_succ]
      by_cases hs : check_sync buf b
      · rw [if_pos hs]
        have hmain := ih (patch_one buf b pids).1 (b + TS_LEN) j' (by omega) i
          (by omega) (by rw [harith2] at hi2; omega)
        rw [hmain]
        -- replace the patched buffer by the received one: window j' + 1 of the
        -- original numbering lies entirely above b + 2
        have hag : ∀ k, b + TS_LEN ≤ k →
            (patch_one buf b pids).1 k = buf k := by
          intro k hk
          exact patch_one_untouched pids buf b k (by unfold TS_LEN at hk; omega)
            (by unfold TS_LEN at hk; omega)
        have hcs : check_sync (patch_one buf b pids).1 (b + TS_LEN + TS_LEN * j') =
            check_sync buf (b + TS_LEN + TS_LEN * j') := by
          apply check_sync_congr
          exact hag _ (by omega)
        rw [hcs, ← harith]
        by_cases hs2 : check_sync buf (b + TS_LEN * (j' + 1))
        · rw [if_pos hs2, if_pos hs2]
          exact patch_one_apply_congr pids _ buf (b + TS_LEN * (j' + 1)) i
            (hag _ (by omega)) (hag _ (by omega)) (hag _ hlow)
        · rw [if_neg hs2, if_neg hs2]
          exact hag _ hlow
      · rw [if_neg hs]
        have hmain := ih buf (b + TS_LEN) j' (by omega) i
          (by omega) (by rw [harith2] at hi2; omega)
        rw [hmain, ← harith]

/-! ### The two counters -/

/-- `n_patched` decomposes as the sum of the per-window contributions, each
computed on the received buffer. -/
theorem patch_ts_patched_sum (pids : List Nat) :
    ∀ n : Nat, ∀ buf : Nat → Nat, ∀ b : Nat,
      (patch_ts buf b n pids).2.1 =
        ((List.range n).map (window_contrib buf b pids)).sum := by
  intro n
  induction n with
  | zero => intro buf b; rfl
  | succ n ih =>
    intro buf b
    rw [List.range_succ_eq_map, List.map_cons, List.map_map, List.sum_cons]
    have hshift : ∀ bufX : Nat → Nat,
        (∀ k, b + TS_LEN ≤ k → bufX k = buf k) →
        (List.range n).map (window_contrib bufX (b + TS_LEN) pids) =
          (List.range n).map (window_contrib buf b pids ∘ Nat.succ) := by
      intro bufX hagX
      apply List.map_congr_left
      intro j _
      show window_contrib bufX (b + TS_LEN) pids j = window_contrib buf b pids (j + 1)
      unfold window_contrib
      have harith : b + TS_LEN * (j + 1) = b + TS_LEN + TS_LEN * j := by ring
      rw [harith]
      have hcs : check_sync bufX (b + TS_LEN + TS_LEN * j) =
          check_sync buf (b + TS_LEN + TS_LEN * j) :=
        check_sync_congr _ _ _ (hagX _ (by omega))
      have hcount : (patch_one bufX (b + TS_LEN + TS_LEN * j) pids).2 =
          (patch_one buf (b + TS_LEN + TS_LEN * j) pids).2 :=
        patch_one_count_congr pids _ _ _ (hagX _ (by omega)) (hagX _ (by omega))
      rw [hcs, hcount]
    have hw0 : window_contrib buf b pids 0 =
        if check_sync buf b then (patch_one buf b pids).2 else 0 := by
      unfold window_contrib
      rw [Nat.mul_zero, Nat.add_zero]
    rw [patch_ts_succ]
    by_cases hs : check_sync buf b
    · rw [if_pos hs]
      have hag : ∀ k, b + TS_LEN ≤ k → (patch_one buf b pids).1 k = buf k := by
        intro k hk
        exact patch_one_untouched pids buf b k (by unfold TS_LEN at hk; omega)
          (by unfold TS_LEN at hk; omega)
      show (patch_one buf b pids).2 +
          (patch_ts (patch_one buf b pids).1 (b + TS_LEN) n pids).2.1 = _
      rw [ih, hshift (patch_one buf b pids).1 hag, hw0, if_pos hs]
    · rw [if_neg hs]
      show (patch_ts buf (b + TS_LEN) n pids).2.1 = _
      rw [ih, hshift buf (fun _ _ => rfl), hw0, if_neg hs]
      omega

/-- The sync-error line count is the number of windows of the received buffer
whose first byte fails `check_sync`; sync bytes are never rewritten, so the
count can be read off the received buffer. -/
theorem patch_ts_syncerr_count (pids : List Nat) :
    ∀ n : Nat, ∀ buf : Nat → Nat, ∀ b : Nat,
      (patch_ts buf b n pids).2.2 =
        (List.range n).countP (fun j => ! check_sync buf (b + TS_LEN * j)) := by
  intro n
  induction n with
  | zero => intro buf b; rfl
  | succ n ih =>
    intro buf b
    rw [List.range_succ_eq_map, List.countP_cons, List.countP_map]
    have hshift : ∀ bufX : Nat → Nat,
        (∀ k, b + TS_LEN ≤ k → bufX k = buf k) →
        (List.range n).countP (fun j => ! check_sync bufX (b + TS_LEN + TS_LEN * j)) =
          (List.range n).countP
            ((fun j => ! check_sync buf (b + TS_LEN * j)) ∘ Nat.succ) := by
      intro bufX hagX
      apply List.countP_congr
      intro j _
      have he : (! check_sync bufX (b + TS_LEN + TS_LEN * j)) =
          (! check_sync buf (b + TS_LEN * (j + 1))) := by
        have harith : b + TS_LEN * (j + 1) = b + TS_LEN + TS_LEN * j := by ring
        rw [harith, check_sync_congr bufX buf _ (hagX _ (by omega))]
      show (! check_sync bufX (b + TS_LEN + TS_LEN * j)) = true ↔
        (! check_sync buf (b + TS_LEN * (j + 1))) = true
      rw [he]
    have h0 : (b + TS_LEN * 0) = b := by omega
    rw [patch_ts_succ]
    by_cases hs : check_sync buf b
    · rw [if_pos hs]
      have hag : ∀ k, b + TS_LEN ≤ k → (patch_one buf b pids).1 k = buf k := by
        intro k hk
        exact patch_one_untouched pids buf b k (by unfold TS_LEN at hk; omega)
          (by unfold TS_LEN at hk; omega)
      show (patch_ts (patch_one buf b pids).1 (b + TS_LEN) n pids).2.2 = _
      rw [ih, hshift (patch_one buf b pids).1 hag, h0, hs]
      simp
    · rw [if_neg hs]
      show (patch_ts buf (b + TS_LEN) n pids).2.2 + 1 = _
      rw [ih, hshift buf (fun _ _ => rfl), h0]
      have hs' : check_sync buf b = false := by
        revert hs
        cases check_sync buf b <;> simp
      rw [hs']
      simp

/-! ### State of the buffer after a pass -/

/-- Sync bytes survive a pass unchanged. -/
theorem check_sync_after_patch (pids : List Nat) (n : Nat) (buf : Nat → Nat)
    (b j : Nat) :
    check_sync (patch_ts buf b n pids).1 (b + TS_LEN * j) =
      check_sync buf (b + TS_LEN * j) := by
  apply check_sync_congr
  apply patch_ts_untouched
  intro k _
  unfold TS_LEN
  constructor <;> intro e <;> omega

/-- The PID of window `j` after a pass: rewritten to `PID_NULL` when the
window had valid sync and a listed PID, unchanged otherwise. -/
theorem get_pid_after_patch (pids : List Nat) (n : Nat) (buf : Nat → Nat)
    (b j : Nat) (hj : j < n) :
    get_pid (patch_ts buf b n pids).1 (b + TS_LEN * j) =
      if check_sync buf (b + TS_LEN * j) = true ∧ get_pid buf (b + TS_LEN * j) ∈ pids
      then PID_NULL
      else get_pid buf (b + TS_LEN * j) := by
  have hw1 := patch_ts_window pids n buf b j hj (b + TS_LEN * j + 1)
    (by omega) (by unfold TS_LEN; omega)
  have hw2 := patch_ts_window pids n buf b j hj (b + TS_LEN * j + 2)
    (by omega) (by unfold TS_LEN; omega)
  by_cases hs : check_sync buf (b + TS_LEN * j)
  · rw [if_pos hs] at hw1 hw2
    have hg : get_pid (patch_ts buf b n pids).1 (b + TS_LEN * j) =
        get_pid (patch_one buf (b + TS_LEN * j) pids).1 (b + TS_LEN * j) :=
      get_pid_congr _ _ _ hw1 hw2
    rw [hg, patch_one_buf]
    by_cases hm : get_pid buf (b + TS_LEN * j) ∈ pids
    · rw [if_pos hm, if_pos ⟨hs, hm⟩, get_pid_set_pid_null]
    · rw [if_neg hm, if_neg (fun h => hm h.2)]
  · rw [if_neg hs] at hw1 hw2
    rw [if_neg (fun h => hs h.1)]
    exact get_pid_congr _ _ _ hw1 hw2

/-- A pass in which no valid-sync window has a listed PID changes nothing and
patches nothing. -/
theorem patch_ts_no_match (pids : List Nat) :
    ∀ n : Nat, ∀ buf : Nat → Nat, ∀ b : Nat,
      (∀ j, j < n → check_sync buf (b + TS_LEN * j) = true →
        get_pid buf (b + TS_LEN * j) ∉ pids) →
      (patch_ts buf b n pids).1 = buf ∧ (patch_ts buf b n pids).2.1 = 0 := by
  intro n
  induction n with
  | zero => intro buf b _; exact ⟨rfl, rfl⟩
  | succ n ih =>
    intro buf b hno
    have hshift : ∀ j, j < n → check_sync buf (b + TS_LEN + TS_LEN * j) = true →
        get_pid buf (b + TS_LEN + TS_LEN * j) ∉ pids := by
      intro j hj hs
      have harith : b + TS_LEN * (j + 1) = b + TS_LEN + TS_LEN * j := by ring
      have h := hno (j + 1) (by omega)
      rw [harith] at h
      exact h hs
    rw [patch_ts_succ]
    by_cases hs : check_sync buf b
    · rw [if_pos hs]
      have h0 : get_pid buf b ∉ pids := by
        have h := hno 0 (by omega)
        rw [Nat.mul_zero, Nat.add_zero] at h
        exact h hs
      have hbuf : (patch_one buf b pids).1 = buf := by
        rw [patch_one_buf, if_neg h0]
      have hcnt : (patch_one buf b pids).2 = 0 := patch_one_count_notmem pids buf b h0
      rw [hbuf, hcnt]
      have hrec := ih buf (b + TS_LEN) hshift
      exact ⟨hrec.1, by rw [hrec.2]⟩
    · rw [if_neg hs]
      exact ih buf (b + TS_LEN) hshift

/-- Sum of an indicator over a list is a `countP`. -/
theorem sum_map_ite_one (p : Nat → Bool) (l : List Nat) :
    (l.map fun j => if p j then 1 else 0).sum = l.countP p := by
  induction l with
  | nil => rfl
  | cons a l ih =>
    rw [List.map_cons, List.sum_cons, List.countP_cons, ih]
    cases hpa : p a <;> simp [hpa, Nat.add_comm]

/-! ### Example inputs -/

/-- A valid-sync TS packet with PID 100 at offset 0 (remaining bytes 0). -/
def exbuf : Nat → Nat := fun i =>
  if i = 0 then 71 else if i = 1 then 0 else if i = 2 then 100 else 0

/-- A packet whose first byte is 0x46 instead of 0x47. -/
def exbuf_bad : Nat → Nat := fun i => if i = 0 then 70 else 0

/-! ### The claims -/

/-- C1: for every 188-byte window with valid sync byte 0x47 whose 13-bit PID
is in the filter set, `patch_ts` overwrites the PID field with 8191 (NULL)
and leaves every other bit of the packet exactly as received: all window
bytes outside the two PID bytes are untouched (sync byte, fourth byte with
scrambling control, adaptation field control and continuity counter, and the
payload), the top three bits of the second byte (`tei`, `pusi`, `tp`)
survive, the PID bits read 8191, and `get_pid` on the patched window returns
8191. -/
theorem claim1_patched_window (buf : Nat → Nat) (off n j : Nat) (pids : List Nat)
    (hj : j < n)
    (hsync : check_sync buf (off + TS_LEN * j) = true)
    (hmem : get_pid buf (off + TS_LEN * j) ∈ pids)
    (hbyte : buf (off + TS_LEN * j + 1) < 256) :
    get_pid (patch_ts buf off n pids).1 (off + TS_LEN * j) = PID_NULL ∧
    (∀ i, off + TS_LEN * j ≤ i → i < off + TS_LEN * (j + 1) →
      i ≠ off + TS_LEN * j + 1 → i ≠ off + TS_LEN * j + 2 →
      (patch_ts buf off n pids).1 i = buf i) ∧
    (patch_ts buf off n pids).1 (off + TS_LEN * j + 1) / 32 =
      buf (off + TS_LEN * j + 1) / 32 ∧
    (patch_ts buf off n pids).1 (off + TS_LEN * j + 1) % 32 = 31 ∧
    (patch_ts buf off n pids).1 (off + TS_LEN * j + 2) = 255 := by
  have hw1 := patch_ts_window pids n buf off j hj (off + TS_LEN * j + 1)
    (by omega) (by unfold TS_LEN; omega)
  have hw2 := patch_ts_window pids n buf off j hj (off + TS_LEN * j + 2)
    (by omega) (by unfold TS_LEN; omega)
  rw [if_pos hsync, patch_one_buf, if_pos hmem, set_pid_at_pidH] at hw1
  rw [if_pos hsync, patch_one_buf, if_pos hmem, set_pid_at_pidL] at hw2
  refine ⟨?_, ?_, ?_, ?_, ?_⟩
  · rw [get_pid_after_patch pids n buf off j hj, if_pos ⟨hsync, hmem⟩]
  · intro i h1 h2 hne1 hne2
    rw [patch_ts_window pids n buf off j hj i h1 h2, if_pos hsync]
    exact patch_one_untouched pids buf _ i hne1 hne2
  · rw [hw1]
    unfold PID_NULL
    omega
  · rw [hw1]
    unfold PID_NULL
    omega
  · rw [hw2]
    rfl

/-- C2: framing computes `packet_count = length / 188` by truncating integer
division and `payload_offset` as the length minus `188 * packet_count`, from
the length alone. -/
theorem claim2_frame_spec (H k : Nat) (hH : H < TS_LEN) :
    frame (H + TS_LEN * k) = (k, H) := by
  unfold frame TS_LEN
  unfold TS_LEN at hH
  simp only [Prod.mk.injEq]
  omega

/-- C3: the patch operation yields both counters — its value is the triple of
patched buffer, `n_patched` and sync-error count — and the sync-error count
is exactly the number of 188-byte windows whose first byte is not 0x47: each
such window contributes exactly one. -/
theorem claim3_sync_error_count (buf : Nat → Nat) (b n : Nat) (pids : List Nat) :
    (patch_ts buf b n pids).2.2 =
      (List.range n).countP (fun j => ! check_sync buf (b + TS_LEN * j)) :=
  patch_ts_syncerr_count pids n buf b

/-- C4 counterexample: the claim that a matching packet is always counted
exactly once is false.  With filter list `[100, 8191]` the valid-sync packet
with PID 100 is counted twice: the match on entry 100 rewrites the PID to
8191, and the entry 8191 then matches the rewritten PID. -/
theorem claim4_counterexample :
    check_sync exbuf 0 = true ∧ get_pid exbuf 0 ∈ [100, 8191] ∧
    (patch_ts exbuf 0 1 [100, 8191]).2.1 = 2 := by
  decide

/-- C4 (amended): provided the NULL PID 8191 is not itself in the filter set,
`n_patched` counts each valid-sync window whose received PID is in the filter
set exactly once; in particular duplicated filter entries never double-count. -/
theorem claim4_patched_once (buf : Nat → Nat) (b n : Nat) (pids : List Nat)
    (hnull : PID_NULL ∉ pids) :
    (patch_ts buf b n pids).2.1 =
      (List.range n).countP
        (fun j => check_sync buf (b + TS_LEN * j) &&
          decide (get_pid buf (b + TS_LEN * j) ∈ pids)) := by
  rw [patch_ts_patched_sum pids n buf b, ← sum_map_ite_one]
  congr 1
  apply List.map_congr_left
  intro j _
  unfold window_contrib
  cases hs : check_sync buf (b + TS_LEN * j) with
  | false => simp [hs]
  | true =>
    by_cases hm : get_pid buf (b + TS_LEN * j) ∈ pids
    · rw [patch_one_count_mem pids buf _ hm hnull]
      simp [hm]
    · rw [patch_one_count_notmem pids buf _ hm]
      simp [hm]

/-- C5: with a filter set that does not contain 8191, a second pass over the
already patched buffer changes no byte and patches nothing. -/
theorem claim5_idempotent (buf : Nat → Nat) (b n : Nat) (pids : List Nat)
    (hnull : PID_NULL ∉ pids) :
    (patch_ts (patch_ts buf b n pids).1 b n pids).1 = (patch_ts buf b n pids).1 ∧
    (patch_ts (patch_ts buf b n pids).1 b n pids).2.1 = 0 := by
  apply patch_ts_no_match
  intro j hj hs
  rw [check_sync_after_patch] at hs
  rw [get_pid_after_patch pids n buf b j hj]
  by_cases hm : get_pid buf (b + TS_LEN * j) ∈ pids
  · rw [if_pos ⟨hs, hm⟩]
    exact hnull
  · rw [if_neg (fun h => hm h.2)]
    exact hm

/-- C6: a valid-sync window whose PID is not in the filter set is byte
identical after patching, and it contributes nothing to `n_patched`: the
total is the sum of the per-window contributions and this window's
contribution is zero. -/
theorem claim6_unmatched_window (buf : Nat → Nat) (off n j : Nat) (pids : List Nat)
    (hj : j < n)
    (hsync : check_sync buf (off + TS_LEN * j) = true)
    (hmem : get_pid buf (off + TS_LEN * j) ∉ pids) :
    (∀ i, off + TS_LEN * j ≤ i → i < off + TS_LEN * (j + 1) →
      (patch_ts buf off n pids).1 i = buf i) ∧
    (patch_ts buf off n pids).2.1 =
      ((List.range n).map (window_contrib buf off pids)).sum ∧
    window_contrib buf off pids j = 0 := by
  refine ⟨?_, patch_ts_patched_sum pids n buf off, ?_⟩
  · intro i h1 h2
    rw [patch_ts_window pids n buf off j hj i h1 h2, if_pos hsync,
      patch_one_buf, if_neg hmem]
  · unfold window_contrib
    rw [if_pos hsync, patch_one_count_notmem pids buf _ hmem]

/-- C7: a window whose first byte is not 0x47 comes through byte-identical,
the datagram is still handed to `sendto` in full at its original length, and
every window of the datagram is still processed exactly as its own bytes
dictate — a sync error never aborts processing. -/
theorem claim7_sync_error_passthrough (buf : Nat → Nat) (n_in j : Nat)
    (pids : List Nat)
    (hj : j < (frame n_in).1)
    (hsync : check_sync buf ((frame n_in).2 + TS_LEN * j) = false) :
    (∀ i, (frame n_in).2 + TS_LEN * j ≤ i → i < (frame n_in).2 + TS_LEN * (j + 1) →
      (process_datagram buf n_in pids).buf i = buf i) ∧
    (process_datagram buf n_in pids).len = n_in ∧
    (∀ j2, j2 < (frame n_in).1 →
      ∀ i, (frame n_in).2 + TS_LEN * j2 ≤ i →
        i < (frame n_in).2 + TS_LEN * (j2 + 1) →
        (process_datagram buf n_in pids).buf i =
          if check_sync buf ((frame n_in).2 + TS_LEN * j2) = true then
            (patch_one buf ((frame n_in).2 + TS_LEN * j2) pids).1 i
          else buf i) := by
  have hbuf : (process_datagram buf n_in pids).buf =
      (patch_ts buf (frame n_in).2 (frame n_in).1 pids).1 := rfl
  refine ⟨?_, rfl, ?_⟩
  · intro i h1 h2
    rw [hbuf, patch_ts_window pids (frame n_in).1 buf (frame n_in).2 j hj i h1 h2,
      hsync]
    simp
  · intro j2 hj2 i h1 h2
    rw [hbuf, patch_ts_window pids (frame n_in).1 buf (frame n_in).2 j2 hj2 i h1 h2]

/-- C8: framing and patching are total over all input lengths; a buffer
shorter than 188 bytes frames to zero packets with the whole length as
offset, the patch loop runs zero iterations, and the datagram passes through
byte-identical at its original length with both counters zero. -/
theorem claim8_short_passthrough (buf : Nat → Nat) (n_in : Nat) (pids : List Nat)
    (hshort : n_in < TS_LEN) :
    frame n_in = (0, n_in) ∧
    process_datagram buf n_in pids = ⟨buf, n_in, 0, 0⟩ := by
  have hdiv : n_in / TS_LEN = 0 := Nat.div_eq_of_lt hshort
  constructor
  · simp only [frame, hdiv, Nat.zero_mul, Nat.sub_zero]
  · simp only [process_datagram, hdiv, Nat.zero_mul, Nat.sub_zero, patch_ts_zero]

/-- C9 (the code violates the claim): a command line of 106 arguments — the
program name, the four socket arguments and 101 PID values — makes the loop
in `parse_args` write `Pid2Patch[100]`, one past the end of the 100-element
array. -/
theorem claim9_overflow :
    100 ∈ parse_args_pid_writes 106 ∧ ¬ 100 < PID2PATCH_CAPACITY := by
  decide

/-- C10: `set_pid` stores the 13-bit truncation of its argument — a
subsequent `get_pid` returns `v mod 8192` — writes nothing but the two PID
parts (all bytes outside the second and third of the header are untouched,
and the top three bits of the second byte survive); and `get_pid` never
returns more than 8191. -/
theorem claim10_roundtrip (buf : Nat → Nat) (b v : Nat)
    (hbyte : buf (b + 1) < 256) :
    get_pid (set_pid buf b v) b = v % 8192 ∧
    (∀ i, i ≠ b + 1 → i ≠ b + 2 → set_pid buf b v i = buf i) ∧
    set_pid buf b v (b + 1) / 32 = buf (b + 1) / 32 ∧
    (∀ bufX : Nat → Nat, ∀ bX : Nat, get_pid bufX bX ≤ 8191) := by
  refine ⟨get_pid_set_pid buf b v,
    fun i h1 h2 => set_pid_at_other buf b v i h1 h2, ?_,
    fun bufX bX => get_pid_le bufX bX⟩
  rw [set_pid_at_pidH]
  omega

/-! ### Witnesses -/

/-- Witness for C1: a single packet with PID 100 and filter set `{100}`. -/
theorem claim1_witness :
    (0 < 1 ∧ check_sync exbuf 0 = true ∧ get_pid exbuf 0 ∈ [100] ∧
      exbuf 1 < 256) ∧
    (get_pid (patch_ts exbuf 0 1 [100]).1 0 = PID_NULL ∧
     (∀ i, 0 ≤ i → i < 188 → i ≠ 1 → i ≠ 2 →
       (patch_ts exbuf 0 1 [100]).1 i = exbuf i) ∧
     (patch_ts exbuf 0 1 [100]).1 1 / 32 = exbuf 1 / 32 ∧
     (patch_ts exbuf 0 1 [100]).1 1 % 32 = 31 ∧
     (patch_ts exbuf 0 1 [100]).1 2 = 255) :=
  ⟨⟨by decide, by decide, by decide, by decide⟩,
   claim1_patched_window exbuf 0 1 0 [100] (by decide) (by decide) (by decide)
     (by decide)⟩

/-- Witness for C2: a 12-byte RTP-style header plus two packets. -/
theorem claim2_witness : 12 < TS_LEN ∧ frame (12 + TS_LEN * 2) = (2, 12) :=
  ⟨by decide, claim2_frame_spec 12 2 (by decide)⟩

/-- Witness for C4 (amended), at a single matching packet. -/
theorem claim4_witness :
    PID_NULL ∉ [100] ∧
    (patch_ts exbuf 0 1 [100]).2.1 =
      (List.range 1).countP
        (fun j => check_sync exbuf (0 + TS_LEN * j) &&
          decide (get_pid exbuf (0 + TS_LEN * j) ∈ [100])) :=
  ⟨by decide, claim4_patched_once exbuf 0 1 [100] (by decide)⟩

/-- Witness for C5. -/
theorem claim5_witness :
    PID_NULL ∉ [100] ∧
    ((patch_ts (patch_ts exbuf 0 1 [100]).1 0 1 [100]).1 =
        (patch_ts exbuf 0 1 [100]).1 ∧
     (patch_ts (patch_ts exbuf 0 1 [100]).1 0 1 [100]).2.1 = 0) :=
  ⟨by decide, claim5_idempotent exbuf 0 1 [100] (by decide)⟩

/-- Witness for C6: the PID-100 packet against filter set `{200}`. -/
theorem claim6_witness :
    (0 < 1 ∧ check_sync exbuf 0 = true ∧ get_pid exbuf 0 ∉ [200]) ∧
    ((∀ i, 0 ≤ i → i < 188 → (patch_ts exbuf 0 1 [200]).1 i = exbuf i) ∧
     (patch_ts exbuf 0 1 [200]).2.1 =
       ((List.range 1).map (window_contrib exbuf 0 [200])).sum ∧
     window_contrib exbuf 0 [200] 0 = 0) :=
  ⟨⟨by decide, by decide, by decide⟩,
   claim6_unmatched_window exbuf 0 1 0 [200] (by decide) (by decide) (by decide)⟩

/-- Witness for C7: one packet with a corrupted sync byte. -/
theorem claim7_witness :
    (0 < (frame 188).1 ∧ check_sync exbuf_bad ((frame 188).2 + TS_LEN * 0) = false) ∧
    ((∀ i, (frame 188).2 + TS_LEN * 0 ≤ i → i < (frame 188).2 + TS_LEN * (0 + 1) →
       (process_datagram exbuf_bad 188 [100]).buf i = exbuf_bad i) ∧
     (process_datagram exbuf_bad 188 [100]).len = 188 ∧
     (∀ j2, j2 < (frame 188).1 →
       ∀ i, (frame 188).2 + TS_LEN * j2 ≤ i →
         i < (frame 188).2 + TS_LEN * (j2 + 1) →
         (process_datagram exbuf_bad 188 [100]).buf i =
           if check_sync exbuf_bad ((frame 188).2 + TS_LEN * j2) = true then
             (patch_one exbuf_bad ((frame 188).2 + TS_LEN * j2) [100]).1 i
           else exbuf_bad i)) :=
  ⟨⟨by decide, by decide⟩,
   claim7_sync_error_passthrough exbuf_bad 188 0 [100] (by decide) (by decide)⟩

/-- Witness for C8: a 100-byte datagram. -/
theorem claim8_witness :
    100 < TS_LEN ∧
    (frame 100 = (0, 100) ∧
     process_datagram exbuf 100 [100] = ⟨exbuf, 100, 0, 0⟩) :=
  ⟨by decide, claim8_short_passthrough exbuf 100 [100] (by decide)⟩

/-- Witness for C10: storing 70000 into the PID field of the example header. -/
theorem claim10_witness :
    exbuf 1 < 256 ∧
    (get_pid (set_pid exbuf 0 70000) 0 = 70000 % 8192 ∧
     (∀ i, i ≠ 1 → i ≠ 2 → set_pid exbuf 0 70000 i = exbuf i) ∧
     set_pid exbuf 0 70000 1 / 32 = exbuf 1 / 32 ∧
     (∀ bufX : Nat → Nat, ∀ bX : Nat, get_pid bufX bX ≤ 8191)) :=
  ⟨by decide, claim10_roundtrip exbuf 0 70000 (by decide)⟩

end TSPidFilter
